import Mathlib

/-!
A verification development for the vistos legacy congressional-data library.

The definitions below are shallow embeddings of the Python source:

* `numberYearMapping`, `get_start_year`, `get_end_year`, `get_congress_numbers`,
  `get_current_congress_number`, `convert_to_congress_number`, `clean_xml`
  embed `vistos/src/gpo/util.py`;
* `BioguideTermRecord`, `mkBioguideTermRecord`, `merge_terms`,
  `query_member_parse` embed `vistos/src/gpo/bioguideretro.py`;
* `CongressMember`, `setBioguide`, `congress_members` embed `vistos/src/duo.py`.

Python exceptions are modelled as `Option`/`Except` failures.
-/

set_option maxRecDepth 8000

namespace Vistos

/-- The `_NUMBER_YEAR_MAPPING` table of `util.py`, verbatim:
each entry is `(congress number, start year, end year)`. -/
def numberYearMapping : List (Int × Int × Int) := [
  (0, 1786, 1789),
  (1, 1789, 1791),
  (2, 1791, 1793),
  (3, 1793, 1795),
  (4, 1795, 1797),
  (5, 1797, 1799),
  (6, 1799, 1801),
  (7, 1801, 1803),
  (8, 1803, 1805),
  (9, 1805, 1807),
  (10, 1807, 1809),
  (11, 1809, 1811),
  (12, 1811, 1813),
  (13, 1813, 1815),
  (14, 1815, 1817),
  (15, 1817, 1819),
  (16, 1819, 1821),
  (17, 1821, 1823),
  (18, 1823, 1825),
  (19, 1825, 1827),
  (20, 1827, 1829),
  (21, 1829, 1831),
  (22, 1831, 1833),
  (23, 1833, 1835),
  (24, 1835, 1837),
  (25, 1837, 1839),
  (26, 1839, 1841),
  (27, 1841, 1843),
  (28, 1843, 1845),
  (29, 1845, 1847),
  (30, 1847, 1849),
  (31, 1849, 1851),
  (32, 1851, 1853),
  (33, 1853, 1855),
  (34, 1855, 1857),
  (35, 1857, 1859),
  (36, 1859, 1861),
  (37, 1861, 1863),
  (38, 1863, 1865),
  (39, 1865, 1867),
  (40, 1867, 1869),
  (41, 1869, 1871),
  (42, 1871, 1873),
  (43, 1873, 1875),
  (44, 1875, 1877),
  (45, 1877, 1879),
  (46, 1879, 1881),
  (47, 1881, 1883),
  (48, 1883, 1885),
  (49, 1885, 1887),
  (50, 1887, 1889),
  (51, 1889, 1891),
  (52, 1891, 1893),
  (53, 1893, 1895),
  (54, 1895, 1897),
  (55, 1897, 1899),
  (56, 1899, 1901),
  (57, 1901, 1903),
  (58, 1903, 1905),
  (59, 1905, 1907),
  (60, 1907, 1909),
  (61, 1909, 1911),
  (62, 1911, 1913),
  (63, 1913, 1915),
  (64, 1915, 1917),
  (65, 1917, 1919),
  (66, 1919, 1921),
  (67, 1921, 1923),
  (68, 1923, 1925),
  (69, 1925, 1927),
  (70, 1927, 1929),
  (71, 1929, 1931),
  (72, 1931, 1933),
  (73, 1933, 1935),
  (74, 1935, 1937),
  (75, 1937, 1939),
  (76, 1939, 1941),
  (77, 1941, 1943),
  (78, 1943, 1945),
  (79, 1945, 1947),
  (80, 1947, 1949),
  (81, 1949, 1951),
  (82, 1951, 1953),
  (83, 1953, 1955),
  (84, 1955, 1957),
  (85, 1957, 1959),
  (86, 1959, 1961),
  (87, 1961, 1963),
  (88, 1963, 1965),
  (89, 1965, 1967),
  (90, 1967, 1969),
  (91, 1969, 1971),
  (92, 1971, 1973),
  (93, 1973, 1975),
  (94, 1975, 1977),
  (95, 1977, 1979),
  (96, 1979, 1981),
  (97, 1981, 1983),
  (98, 1983, 1985),
  (99, 1985, 1987),
  (100, 1987, 1989),
  (101, 1989, 1991),
  (102, 1991, 1993),
  (103, 1993, 1995),
  (104, 1995, 1997),
  (105, 1997, 1999),
  (106, 1999, 2001),
  (107, 2001, 2003),
  (108, 2003, 2005),
  (109, 2005, 2007),
  (110, 2007, 2009),
  (111, 2009, 2011),
  (112, 2011, 2013),
  (113, 2013, 2015),
  (114, 2015, 2017),
  (115, 2017, 2019),
  (116, 2019, 2021),
  (117, 2021, 2023),
  (118, 2023, 2025),
  (119, 2025, 2027),
  (120, 2027, 2029),
  (121, 2029, 2031),
  (122, 2031, 2033),
  (123, 2033, 2035),
  (124, 2035, 2037),
  (125, 2037, 2039),
  (126, 2039, 2041),
  (127, 2041, 2043),
  (128, 2043, 2045),
  (129, 2045, 2047),
  (130, 2047, 2049),
  (131, 2049, 2051),
  (132, 2051, 2053),
  (133, 2053, 2055),
  (134, 2055, 2057),
  (135, 2057, 2059),
  (136, 2059, 2061),
  (137, 2061, 2063),
  (138, 2063, 2065),
  (139, 2065, 2067),
  (140, 2067, 2069),
  (141, 2069, 2071),
  (142, 2071, 2073),
  (143, 2073, 2075),
  (144, 2075, 2077),
  (145, 2077, 2079),
  (146, 2079, 2081),
  (147, 2081, 2083),
  (148, 2083, 2085),
  (149, 2085, 2087),
  (150, 2087, 2089)]

/-- Dictionary lookup `_NUMBER_YEAR_MAPPING[number]`; `none` models `KeyError`. -/
def lookupYears (number : Int) : Option (Int × Int) :=
  (numberYearMapping.find? (fun e => e.1 == number)).map (fun e => e.2)

/-- `util.get_start_year`: `_NUMBER_YEAR_MAPPING[number][0]`;
`none` models the `KeyError` escaping the lookup. -/
def get_start_year (number : Int) : Option Int :=
  (lookupYears number).map Prod.fst

/-- `util.get_end_year`: `_NUMBER_YEAR_MAPPING[number][1]`. -/
def get_end_year (number : Int) : Option Int :=
  (lookupYears number).map Prod.snd

/-- `util.first_valid_year`: `_NUMBER_YEAR_MAPPING[0][0]`. -/
def first_valid_year : Option Int :=
  get_start_year 0

/-- `util.get_congress_numbers`: the set of congress numbers whose year span
contains `year` (`years[1] >= year >= years[0]`), as the list of matching
table keys (the table keys are distinct, so this is a faithful model of the
Python `set`). -/
def get_congress_numbers (year : Int) : List Int :=
  (numberYearMapping.filter (fun e => e.2.2 >= year && year >= e.2.1)).map (fun e => e.1)

/-- The ambient date `datetime.datetime.now()` read by `util.py`. -/
structure Date where
  year : Int
  month : Int
  day : Int

/-- `util.get_current_congress_number`: `min`/`max` of
`get_congress_numbers(current_year)`; `none` models the `ValueError`
that `min`/`max` raise on an empty set. -/
def get_current_congress_number (d : Date) : Option Int :=
  let congresses := get_congress_numbers d.year
  if d.month == 1 && d.day < 3 then congresses.min? else congresses.max?

/-- `util.convert_to_congress_number`, with the current date made explicit;
`none` models any exception escaping the call. -/
def convert_to_congress_number (d : Date) (number_or_year : Option Int) : Option Int :=
  match number_or_year with
  | none => get_current_congress_number d
  | some v =>
    if v >= d.year then
      get_current_congress_number d
    else
      match first_valid_year with
      | none => none
      | some fv =>
        if v >= fv then
          (get_congress_numbers v).max?
        else
          match get_current_congress_number d with
          | none => none
          | some current_congress =>
            if v > current_congress then some current_congress
            else if v >= 0 then some v
            else some 0

/-- The Python whitespace class `\s` (ASCII part), used by `Text.clean_xml`. -/
def pythonWhitespace : List Char :=
  [' ', '\t', '\n', '\x0d', Char.ofNat 11, Char.ofNat 12]

/-- The punctuation characters of the allow-list in `Text.clean_xml`'s
regular expression `[^a-zA-Z0-9\s~...]` (the literal characters of the
character class, braces and backslash included). -/
def xmlPunct : List Char :=
  ['~', Char.ofNat 96, '!', '@', '#', '$', '%', Char.ofNat 94, '&', '*',
   '(', ')', '_', '+', '=', ':', Char.ofNat 123, Char.ofNat 125, '[', ';',
   '<', ',', '>', '.', '?', '/', Char.ofNat 92, '-', ']', Char.ofNat 34,
   Char.ofNat 39]

/-- A character survives `Text.clean_xml` exactly when it is ASCII
alphanumeric, whitespace, or one of the listed punctuation characters. -/
def isAllowedXmlChar (c : Char) : Bool :=
  c.isAlphanum || pythonWhitespace.contains c || xmlPunct.contains c

/-- `util.Text.clean_xml`: `re.sub` deletes every character outside the
allow-list, keeping the remaining characters in order. -/
def clean_xml (text : List Char) : List Char :=
  text.filter isAllowedXmlChar

/-- `bioguideretro.BioguideTermRecord`, with its six data fields and the
derived `house_speaker` flag stored as a field (the Python object is a
`dict`; later merge steps mutate `position`/`house_speaker` directly). -/
structure BioguideTermRecord where
  congress_number : Int
  term_start : Int
  term_end : Int
  position : String
  state : String
  party : Option String
  house_speaker : Bool
deriving DecidableEq, Repr

/-- `BioguideTermRecord.__init__`: stores the congress number, derives the
start/end years from the calendar table (`none` models the `KeyError` from
`get_start_year`/`get_end_year` on an unknown congress number), stores
position/state/party, and sets the speaker flag from
`position == 'speaker of the house'`. -/
def mkBioguideTermRecord (congress_number : Int) (party : Option String)
    (position state : String) : Option BioguideTermRecord :=
  match lookupYears congress_number with
  | none => none
  | some years =>
    some { congress_number := congress_number
           term_start := years.1
           term_end := years.2
           position := position
           state := state
           party := party
           house_speaker := position == "speaker of the house" }

/-- The filter of `_merge_terms`: `term.position in ('vice president', 'president')`. -/
def isExecPos (p : String) : Bool :=
  p == "vice president" || p == "president"

/-- The duplicate-session reconciliation of `_merge_terms`: on a party
conflict the incoming term replaces the stored one wholesale; then the
speaker-of-the-house logic rewrites `position` or sets the flag. -/
def updateMatch (m0 term : BioguideTermRecord) : BioguideTermRecord :=
  let m1 := if m0.party ≠ term.party then term else m0
  if m1.house_speaker then { m1 with position := term.position }
  else if term.house_speaker then { m1 with house_speaker := true }
  else m1

/-- Lookup in the insertion-ordered association list that models the Python
`dict` `merged_terms`. -/
def alistLookup (m : List (Int × BioguideTermRecord)) (k : Int) :
    Option BioguideTermRecord :=
  (m.find? (fun e => e.1 == k)).map (fun e => e.2)

/-- `merged_terms[k] = v` on the insertion-ordered association list: an
existing key keeps its place, a new key is appended (Python dict semantics). -/
def alistInsert (m : List (Int × BioguideTermRecord)) (k : Int)
    (v : BioguideTermRecord) : List (Int × BioguideTermRecord) :=
  match m with
  | [] => [(k, v)]
  | e :: rest =>
    if e.1 == k then (k, v) :: rest else e :: alistInsert rest k v

/-- One iteration of the loop in `_merge_terms`. -/
def mergeStep (acc : List (Int × BioguideTermRecord))
    (term : BioguideTermRecord) : List (Int × BioguideTermRecord) :=
  if isExecPos term.position then acc
  else
    match alistLookup acc term.congress_number with
    | some m0 => alistInsert acc term.congress_number (updateMatch m0 term)
    | none => alistInsert acc term.congress_number term

/-- `bioguideretro._merge_terms`: fold the loop over the raw terms and
return `merged_terms.values()` in insertion order. -/
def merge_terms (term_records : List BioguideTermRecord) :
    List BioguideTermRecord :=
  (term_records.foldl mergeStep []).map Prod.snd

/-- The data fields of `bioguideretro.BioguideMemberRecord` (the XML parsing
of `__init__` is outside the claims; the record shape is what the `duo.py`
layer consumes). Nullable fields are `Option`; `""` models an empty string. -/
structure BioguideMemberRecord where
  bioguide_id : String
  first_name : String
  last_name : String
  nickname : Option String
  suffix : Option String
  birth_year : Option String
  death_year : Option String
  biography : Option String
  terms : List BioguideTermRecord
deriving DecidableEq, Repr

/-- Python `str.upper` restricted to its ASCII behaviour, as used by
`CongressMember.__init__` on the bioguide id. -/
def str_upper (s : String) : String :=
  s.map Char.toUpper

/-- The state of a `duo.CongressMember` relevant to the claims:
`_bg_id` and `_bg` (`None` modelled as `none`). -/
structure CongressMember where
  bg_id : Option String
  bg : Option BioguideMemberRecord
deriving DecidableEq, Repr

/-- The errors raised by `duo.py` setters. -/
inductive DuoError where
  | invalidBioguide
deriving DecidableEq, Repr

/-- `CongressMember.__init__(bioguide_id, load_immediately=False)` with no
GovInfo key: `_bg = None`, and `_bg_id = str(bioguide_id).upper()` when an
id is given, else `None`. -/
def newCongressMember (bioguide_id : Option String) : CongressMember :=
  { bg_id := bioguide_id.map str_upper, bg := none }

/-- The validity test of the `CongressMember.bioguide` setter:
`bool(id and first_name and last_name and terms)` under Python truthiness. -/
def validBioguideRecord (b : BioguideMemberRecord) : Bool :=
  !(b.bioguide_id == "") && !(b.first_name == "") && !(b.last_name == "")
    && !b.terms.isEmpty

/-- The `CongressMember.bioguide` setter: an invalid record raises
`InvalidBioguideError`; a valid one is stored and its id copied to `_bg_id`. -/
def setBioguide (m : CongressMember) (new_bioguide : BioguideMemberRecord) :
    Except DuoError CongressMember :=
  if validBioguideRecord new_bioguide then
    Except.ok { m with bg := some new_bioguide,
                       bg_id := some new_bioguide.bioguide_id }
  else
    Except.error DuoError.invalidBioguide

/-- The loop body of `Congress.members` on the bioguide path: for each
member record, build a `CongressMember` and assign the record through the
validating setter, collecting the members in order. An exception from the
setter aborts the whole property access. -/
def buildMembers : List BioguideMemberRecord → Except DuoError (List CongressMember)
  | [] => Except.ok []
  | r :: rs =>
    match setBioguide (newCongressMember r.bioguide_id) r with
    | Except.error e => Except.error e
    | Except.ok c =>
      match buildMembers rs with
      | Except.error e => Except.error e
      | Except.ok cs => Except.ok (c :: cs)

/-- `duo.Congress.members` restricted to the bioguide-only path
(`self._gi is None`, `self._bg` loaded with the given member list): the
member list is traversed in crawl order with no deduplication. -/
def congress_members (bg_members : List BioguideMemberRecord) :
    Except DuoError (List CongressMember) :=
  buildMembers bg_members

/-- The parse-retry logic of `bioguideretro._query_member_by_id` after the
response text is in hand, abstracted over the XML parser (an external
collaborator): strict parse first; on failure, parse the sanitized text and
let that outcome (success or error) stand, with no further attempt. The
second component counts the parser invocations. -/
def query_member_parse {E A : Type} (parse : List Char → Except E A)
    (text : List Char) : Except E A × Nat :=
  match parse text with
  | Except.ok x => (Except.ok x, 1)
  | Except.error _ => (parse (clean_xml text), 2)

/-! ### Lemmas about the merged-terms association list -/

/-- The effect of one merge iteration on the entry of a single session
number (used to project the dict-valued fold onto one key). -/
def perKeyStep (n : Int) (cur : Option BioguideTermRecord)
    (term : BioguideTermRecord) : Option BioguideTermRecord :=
  if isExecPos term.position then cur
  else if term.congress_number == n then
    match cur with
    | some m0 => some (updateMatch m0 term)
    | none => some term
  else cur

theorem alistLookup_cons (e : Int × BioguideTermRecord) (m : List (Int × BioguideTermRecord))
    (n : Int) :
    alistLookup (e :: m) n = if e.1 == n then some e.2 else alistLookup m n := by
  by_cases h : e.1 == n
  · simp [alistLookup, List.find?, h]
  · simp only [Bool.not_eq_true] at h
    simp [alistLookup, List.find?, h]

theorem alistLookup_insert (m : List (Int × BioguideTermRecord)) (k n : Int)
    (v : BioguideTermRecord) :
    alistLookup (alistInsert m k v) n =
      if k == n then some v else alistLookup m n := by
  induction m with
  | nil =>
    simp [alistInsert, alistLookup_cons]
  | cons e rest ih =>
    by_cases hek : e.1 = k
    · simp [alistInsert, hek, alistLookup_cons]
      by_cases hkn : k = n
      · simp [hkn]
      · have : (k == n) = false := by simp [hkn]
        simp [this, hkn]
    · have hekb : (e.1 == k) = false := by simp [hek]
      simp only [alistInsert, hekb, Bool.false_eq_true, if_false]
      rw [alistLookup_cons, alistLookup_cons, ih]
      by_cases hen : e.1 = n
      · have : (k == n) = false := by
          simp only [beq_eq_false_iff_ne, ne_eq]
          intro h; exact hek (hen ▸ h.symm ▸ rfl)
        simp [hen, this]
      · simp [hen]

theorem mem_alistInsert {m : List (Int × BioguideTermRecord)} {k : Int}
    {v : BioguideTermRecord} {e : Int × BioguideTermRecord}
    (h : e ∈ alistInsert m k v) : e = (k, v) ∨ e ∈ m := by
  induction m with
  | nil =>
    simp [alistInsert] at h
    exact Or.inl h
  | cons e₂ rest ih =>
    by_cases h₂ : e₂.1 == k
    · simp only [alistInsert, h₂, if_true] at h
      rcases List.mem_cons.mp h with h | h
      · exact Or.inl h
      · exact Or.inr (List.mem_cons_of_mem _ h)
    · simp only [alistInsert, h₂, Bool.false_eq_true, if_false] at h
      rcases List.mem_cons.mp h with h | h
      · exact Or.inr (h ▸ List.mem_cons_self _ _)
      · rcases ih h with h | h
        · exact Or.inl h
        · exact Or.inr (List.mem_cons_of_mem _ h)

theorem mem_keys_alistInsert {m : List (Int × BioguideTermRecord)} {k a : Int}
    {v : BioguideTermRecord} (h : a ∈ (alistInsert m k v).map Prod.fst) :
    a = k ∨ a ∈ m.map Prod.fst := by
  rcases List.mem_map.mp h with ⟨e, he, rfl⟩
  rcases mem_alistInsert he with h | h
  · exact Or.inl (by rw [h])
  · exact Or.inr (List.mem_map_of_mem _ h)

theorem keys_nodup_alistInsert {m : List (Int × BioguideTermRecord)} {k : Int}
    {v : BioguideTermRecord} (h : (m.map Prod.fst).Nodup) :
    ((alistInsert m k v).map Prod.fst).Nodup := by
  induction m with
  | nil => exact List.nodup_singleton k
  | cons e rest ih =>
    rw [List.map_cons, List.nodup_cons] at h
    by_cases h₂ : e.1 == k
    · have hek : e.1 = k := by exact_mod_cast beq_iff_eq.mp h₂
      simp only [alistInsert, h₂, if_true, List.map_cons, List.nodup_cons]
      exact ⟨hek ▸ h.1, h.2⟩
    · simp only [alistInsert, h₂, Bool.false_eq_true, if_false, List.map_cons,
        List.nodup_cons]
      refine ⟨fun hmem => ?_, ih h.2⟩
      rcases mem_keys_alistInsert hmem with h₃ | h₃
      · exact h₂ (by simp [h₃])
      · exact h.1 h₃

theorem alistLookup_eq_some {m : List (Int × BioguideTermRecord)} {k : Int}
    {v : BioguideTermRecord} (h : alistLookup m k = some v) :
    (k, v) ∈ m ∨ (∃ e ∈ m, e.2 = v ∧ (e.1 == k) = true) := by
  unfold alistLookup at h
  cases hf : m.find? (fun e => e.1 == k) with
  | none => rw [hf] at h; simp at h
  | some e =>
    rw [hf] at h
    simp only [Option.map, Option.some.injEq] at h
    have hp := @List.find?_some _ (fun e => e.1 == k) e m hf
    exact Or.inr ⟨e, List.mem_of_find?_eq_some hf, h, hp⟩

theorem updateMatch_congress {m0 t : BioguideTermRecord}
    (h : m0.congress_number = t.congress_number) :
    (updateMatch m0 t).congress_number = t.congress_number := by
  unfold updateMatch
  by_cases hp : m0.party ≠ t.party
  · simp only [if_pos hp]
    split
    · rfl
    · rfl
  · simp only [if_neg hp]
    split
    · exact h
    · split
      · exact h
      · exact h

theorem lookup_mergeStep (acc : List (Int × BioguideTermRecord))
    (t : BioguideTermRecord) (n : Int) :
    alistLookup (mergeStep acc t) n = perKeyStep n (alistLookup acc n) t := by
  unfold mergeStep perKeyStep
  by_cases hex : isExecPos t.position
  · simp [hex]
  · simp only [hex, Bool.false_eq_true, if_false]
    by_cases hc : t.congress_number = n
    · subst hc
      cases hl : alistLookup acc t.congress_number with
      | none => simp [alistLookup_insert, hl]
      | some m0 => simp [alistLookup_insert, hl]
    · have hcb : (t.congress_number == n) = false := by simp [hc]
      cases hl : alistLookup acc t.congress_number with
      | none => simp [alistLookup_insert, hcb, hc]
      | some m0 => simp [alistLookup_insert, hcb, hc]

theorem lookup_foldl_mergeStep (l : List BioguideTermRecord)
    (acc : List (Int × BioguideTermRecord)) (n : Int) :
    alistLookup (l.foldl mergeStep acc) n =
      l.foldl (perKeyStep n) (alistLookup acc n) := by
  induction l generalizing acc with
  | nil => rfl
  | cons t rest ih =>
    simp only [List.foldl_cons]
    rw [ih, lookup_mergeStep]

/-- The invariant of the merged-terms dict: every stored record carries its
own key as congress number, and the keys are distinct. -/
def goodAlist (m : List (Int × BioguideTermRecord)) : Prop :=
  (∀ e ∈ m, e.2.congress_number = e.1) ∧ (m.map Prod.fst).Nodup

theorem goodAlist_mergeStep {acc : List (Int × BioguideTermRecord)}
    {t : BioguideTermRecord} (h : goodAlist acc) : goodAlist (mergeStep acc t) := by
  unfold mergeStep
  by_cases hex : isExecPos t.position
  · simpa [hex] using h
  · simp only [hex, Bool.false_eq_true, if_false]
    have hinsert : ∀ v : BioguideTermRecord,
        v.congress_number = t.congress_number →
        goodAlist (alistInsert acc t.congress_number v) := by
      intro v hv
      constructor
      · intro e he
        rcases mem_alistInsert he with rfl | he
        · exact hv
        · exact h.1 e he
      · exact keys_nodup_alistInsert h.2
    cases hl : alistLookup acc t.congress_number with
    | none => exact hinsert t rfl
    | some m0 =>
      have hm0 : m0.congress_number = t.congress_number := by
        rcases alistLookup_eq_some hl with hmem | ⟨e, he, hv, hk⟩
        · exact h.1 _ hmem
        · have := h.1 e he
          rw [hv] at this
          rw [this]
          exact_mod_cast beq_iff_eq.mp hk
      exact hinsert (updateMatch m0 t) (updateMatch_congress hm0)

theorem values_filter_of_not_mem_keys {m : List (Int × BioguideTermRecord)} {n : Int}
    (hcong : ∀ e ∈ m, e.2.congress_number = e.1)
    (hn : n ∉ m.map Prod.fst) :
    (m.map Prod.snd).filter (fun r => r.congress_number == n) = [] := by
  rw [List.filter_eq_nil_iff]
  intro r hr
  rcases List.mem_map.mp hr with ⟨e, he, rfl⟩
  have h1 := hcong e he
  have h2 : e.1 ≠ n := fun hc => hn (hc ▸ List.mem_map_of_mem _ he)
  simp [h1, h2]

theorem values_filter (m : List (Int × BioguideTermRecord)) (n : Int)
    (h : goodAlist m) :
    (m.map Prod.snd).filter (fun r => r.congress_number == n) =
      match alistLookup m n with
      | some v => [v]
      | none => [] := by
  induction m with
  | nil => rfl
  | cons e rest ih =>
    obtain ⟨hcong, hnodup⟩ := h
    rw [List.map_cons, List.nodup_cons] at hnodup
    have hecong := hcong e (List.mem_cons_self _ _)
    have hrest : goodAlist rest :=
      ⟨fun x hx => hcong x (List.mem_cons_of_mem _ hx), hnodup.2⟩
    rw [alistLookup_cons]
    by_cases hen : e.1 = n
    · have : (e.2.congress_number == n) = true := by simp [hecong, hen]
      simp only [List.map_cons, List.filter_cons, this, if_true, hen, beq_self_eq_true]
      rw [values_filter_of_not_mem_keys hrest.1 (hen ▸ hnodup.1)]
    · have : (e.2.congress_number == n) = false := by simp [hecong, hen]
      have henb : (e.1 == n) = false := by simp [hen]
      simp only [List.map_cons, List.filter_cons, this, Bool.false_eq_true, if_false, henb]
      exact ih hrest

theorem goodAlist_foldl (l : List BioguideTermRecord)
    (acc : List (Int × BioguideTermRecord)) (h : goodAlist acc) :
    goodAlist (l.foldl mergeStep acc) := by
  induction l generalizing acc with
  | nil => exact h
  | cons t rest ih => exact ih _ (goodAlist_mergeStep h)

theorem goodAlist_nil : goodAlist [] := ⟨fun e he => absurd he (List.not_mem_nil e), List.nodup_nil⟩

/-- The session-projection of the merge: the output records whose congress
number is `n` are exactly the final dict entry at key `n`. -/
theorem merge_terms_filter (l : List BioguideTermRecord) (n : Int) :
    (merge_terms l).filter (fun r => r.congress_number == n) =
      match l.foldl (perKeyStep n) none with
      | some v => [v]
      | none => [] := by
  unfold merge_terms
  rw [values_filter _ n (goodAlist_foldl l [] goodAlist_nil)]
  rw [lookup_foldl_mergeStep]
  rfl

theorem perKeyStep_other {n : Int} {cur : Option BioguideTermRecord}
    {t : BioguideTermRecord} (h : t.congress_number ≠ n) :
    perKeyStep n cur t = cur := by
  unfold perKeyStep
  have : (t.congress_number == n) = false := by simp [h]
  by_cases hex : isExecPos t.position <;> simp [hex, this]

theorem foldl_perKeyStep_other {l : List BioguideTermRecord} {n : Int}
    (cur : Option BioguideTermRecord)
    (h : ∀ t ∈ l, t.congress_number ≠ n) :
    l.foldl (perKeyStep n) cur = cur := by
  induction l generalizing cur with
  | nil => rfl
  | cons t rest ih =>
    simp only [List.foldl_cons]
    rw [perKeyStep_other (h t (List.mem_cons_self _ _))]
    exact ih cur (fun x hx => h x (List.mem_cons_of_mem _ hx))

theorem mkBioguideTermRecord_fields {n : Int} {party : Option String}
    {position state : String} {t : BioguideTermRecord}
    (h : mkBioguideTermRecord n party position state = some t) :
    t.congress_number = n ∧ t.position = position ∧ t.state = state ∧
    t.party = party ∧ t.house_speaker = (position == "speaker of the house") := by
  unfold mkBioguideTermRecord at h
  cases hl : lookupYears n with
  | none => rw [hl] at h; exact absurd h (by simp)
  | some years =>
    rw [hl] at h
    injection h with h
    subst h
    exact ⟨rfl, rfl, rfl, rfl, rfl⟩

theorem perKeyStep_miss {n : Int} {t : BioguideTermRecord}
    (hex : isExecPos t.position = false) (hc : t.congress_number = n) :
    perKeyStep n none t = some t := by
  simp [perKeyStep, hex, hc]

theorem perKeyStep_hit {n : Int} {m0 t : BioguideTermRecord}
    (hex : isExecPos t.position = false) (hc : t.congress_number = n) :
    perKeyStep n (some m0) t = some (updateMatch m0 t) := by
  simp [perKeyStep, hex, hc]

theorem merge_terms_pair {t1 t2 : BioguideTermRecord}
    (hex1 : isExecPos t1.position = false) (hex2 : isExecPos t2.position = false)
    (hc : t1.congress_number = t2.congress_number) :
    merge_terms [t1, t2] = [updateMatch t1 t2] := by
  unfold merge_terms
  simp only [List.foldl_cons, List.foldl_nil]
  have e1 : mergeStep [] t1 = [(t1.congress_number, t1)] := by
    simp [mergeStep, hex1, alistLookup, alistInsert]
  have elook : alistLookup [(t1.congress_number, t1)] t2.congress_number = some t1 := by
    rw [alistLookup_cons]
    simp [hc]
  have e2 : mergeStep [(t1.congress_number, t1)] t2 =
      [(t2.congress_number, updateMatch t1 t2)] := by
    unfold mergeStep
    rw [hex2]
    simp only [Bool.false_eq_true, if_false, elook]
    simp [alistInsert, hc]
  rw [e1, e2]
  rfl

theorem updateMatch_same_party {m0 t : BioguideTermRecord}
    (hp : m0.party = t.party) (hs : m0.house_speaker = true) :
    updateMatch m0 t = { m0 with position := t.position } := by
  unfold updateMatch
  simp [hp, hs]

theorem updateMatch_flag_incoming {m0 t : BioguideTermRecord}
    (hp : m0.party = t.party) (hs0 : m0.house_speaker = false)
    (hst : t.house_speaker = true) :
    updateMatch m0 t = { m0 with house_speaker := true } := by
  unfold updateMatch
  simp [hp, hs0, hst]

theorem updateMatch_party_conflict {m0 t : BioguideTermRecord}
    (hp : m0.party ≠ t.party) (hst : t.house_speaker = false) :
    updateMatch m0 t = t := by
  unfold updateMatch
  simp [hp, hst]

/-- C1: Term merge presiding-officer precedence — two raw terms for the same
session with the same party, one `"speaker of the house"`, one
`"representative"`, merged in either order, yield a single record for that
session whose position is `"representative"` and whose presiding-officer
flag is true. -/
theorem merge_presiding_officer_precedence
    (n : Int) (party : Option String) (st1 st2 : String)
    (t1 t2 : BioguideTermRecord)
    (h1 : mkBioguideTermRecord n party "speaker of the house" st1 = some t1)
    (h2 : mkBioguideTermRecord n party "representative" st2 = some t2) :
    (merge_terms [t1, t2]).map (fun r => (r.position, r.house_speaker)) =
      [("representative", true)] ∧
    (merge_terms [t2, t1]).map (fun r => (r.position, r.house_speaker)) =
      [("representative", true)] := by
  obtain ⟨hc1, hpos1, -, hparty1, hsp1⟩ := mkBioguideTermRecord_fields h1
  obtain ⟨hc2, hpos2, -, hparty2, hsp2⟩ := mkBioguideTermRecord_fields h2
  have hs1 : t1.house_speaker = true := by rw [hsp1]; simp
  have hs2 : t2.house_speaker = false := by rw [hsp2]; decide
  have hex1 : isExecPos t1.position = false := by rw [hpos1]; decide
  have hex2 : isExecPos t2.position = false := by rw [hpos2]; decide
  have hcc : t1.congress_number = t2.congress_number := by rw [hc1, hc2]
  have hpp : t1.party = t2.party := by rw [hparty1, hparty2]
  constructor
  · rw [merge_terms_pair hex1 hex2 hcc,
      updateMatch_same_party hpp hs1]
    simp [hpos2, hs1]
  · rw [merge_terms_pair hex2 hex1 hcc.symm,
      updateMatch_flag_incoming hpp.symm hs2 hs1]
    simp [hpos2]

theorem mergeStep_exec {acc : List (Int × BioguideTermRecord)}
    {t : BioguideTermRecord} (h : isExecPos t.position = true) :
    mergeStep acc t = acc := by
  simp [mergeStep, h]

theorem foldl_mergeStep_filter (l : List BioguideTermRecord)
    (acc : List (Int × BioguideTermRecord)) :
    l.foldl mergeStep acc =
      (l.filter (fun t => !isExecPos t.position)).foldl mergeStep acc := by
  induction l generalizing acc with
  | nil => rfl
  | cons t rest ih =>
    by_cases h : isExecPos t.position
    · rw [List.foldl_cons, mergeStep_exec h]
      have : (t :: rest).filter (fun t => !isExecPos t.position) =
          rest.filter (fun t => !isExecPos t.position) := by
        simp [List.filter_cons, h]
      rw [this]
      exact ih acc
    · have hb : isExecPos t.position = false := by simpa using h
      have : (t :: rest).filter (fun t => !isExecPos t.position) =
          t :: rest.filter (fun t => !isExecPos t.position) := by
        simp [List.filter_cons, hb]
      rw [List.foldl_cons, this, List.foldl_cons]
      exact ih _

/-- The values of the merged-terms dict never carry an executive position. -/
def nonExecVals (m : List (Int × BioguideTermRecord)) : Prop :=
  ∀ e ∈ m, isExecPos e.2.position = false

theorem updateMatch_position_cases (m0 t : BioguideTermRecord) :
    (updateMatch m0 t).position = m0.position ∨
      (updateMatch m0 t).position = t.position := by
  unfold updateMatch
  by_cases hp : m0.party ≠ t.party
  · simp only [if_pos hp]
    by_cases hs : t.house_speaker <;> simp [hs]
  · simp only [if_neg hp]
    by_cases hs : m0.house_speaker
    · simp [hs]
    · by_cases hs2 : t.house_speaker <;> simp [hs, hs2]

theorem nonExecVals_mergeStep {acc : List (Int × BioguideTermRecord)}
    {t : BioguideTermRecord} (h : nonExecVals acc) :
    nonExecVals (mergeStep acc t) := by
  unfold mergeStep
  by_cases hex : isExecPos t.position
  · simpa [hex] using h
  · have hexf : isExecPos t.position = false := by simpa using hex
    simp only [hexf, Bool.false_eq_true, if_false]
    have hins : ∀ v : BioguideTermRecord, isExecPos v.position = false →
        nonExecVals (alistInsert acc t.congress_number v) := by
      intro v hv e he
      rcases mem_alistInsert he with rfl | he
      · exact hv
      · exact h e he
    cases hl : alistLookup acc t.congress_number with
    | none => exact hins t hexf
    | some m0 =>
      have hm0 : isExecPos m0.position = false := by
        rcases alistLookup_eq_some hl with hmem | ⟨e, he, hv, -⟩
        · exact h _ hmem
        · exact hv ▸ h e he
      rcases updateMatch_position_cases m0 t with hu | hu
      · exact hins _ (by rw [hu]; exact hm0)
      · exact hins _ (by rw [hu]; exact hexf)

theorem nonExecVals_foldl (l : List BioguideTermRecord)
    (acc : List (Int × BioguideTermRecord)) (h : nonExecVals acc) :
    nonExecVals (l.foldl mergeStep acc) := by
  induction l generalizing acc with
  | nil => exact h
  | cons t rest ih => exact ih _ (nonExecVals_mergeStep h)

/-- C2: Term merge discards executive roles — terms whose position is
`"vice president"` or `"president"` contribute nothing to the merge (the
output equals the merge of the input with them filtered out), and no output
record ever carries either of those positions. -/
theorem merge_discards_executive_roles (l : List BioguideTermRecord) :
    merge_terms l = merge_terms (l.filter (fun t => !isExecPos t.position)) ∧
    ∀ r ∈ merge_terms l,
      r.position ≠ "vice president" ∧ r.position ≠ "president" := by
  constructor
  · unfold merge_terms
    rw [foldl_mergeStep_filter]
  · intro r hr
    unfold merge_terms at hr
    rcases List.mem_map.mp hr with ⟨e, he, rfl⟩
    have hne := nonExecVals_foldl l []
      (fun e he => absurd he (List.not_mem_nil e)) e he
    unfold isExecPos at hne
    simp only [Bool.or_eq_false_iff, beq_eq_false_iff_ne, ne_eq] at hne
    exact hne

/-- C2 witness: a single representative term passes through the merge and
its position is not an executive one. -/
theorem merge_discards_executive_roles_witness :
    (merge_terms [⟨1, 1789, 1791, "representative", "NY", some "pro-administration", false⟩] =
      merge_terms ([⟨1, 1789, 1791, "representative", "NY", some "pro-administration", false⟩].filter
        (fun t => !isExecPos t.position))) ∧
    (BioguideTermRecord.position
        ⟨1, 1789, 1791, "representative", "NY", some "pro-administration", false⟩ ≠ "vice president" ∧
      BioguideTermRecord.position
        ⟨1, 1789, 1791, "representative", "NY", some "pro-administration", false⟩ ≠ "president") :=
  ⟨(merge_discards_executive_roles [(⟨1, 1789, 1791, "representative", "NY", some "pro-administration", false⟩ : BioguideTermRecord)]).1,
   (merge_discards_executive_roles [(⟨1, 1789, 1791, "representative", "NY", some "pro-administration", false⟩ : BioguideTermRecord)]).2
     (⟨1, 1789, 1791, "representative", "NY", some "pro-administration", false⟩ : BioguideTermRecord) (by decide)⟩

/-- C3: on a same-session party conflict, the incoming non-speaker term
replaces the stored speaker term wholesale, so the merged record for that
session is exactly the incoming term — incoming position, presiding-officer
flag false — regardless of the other sessions' terms around the pair. -/
theorem merge_party_conflict_cancels_speaker_flag
    (l1 l2 l3 : List BioguideTermRecord) (n : Int) (p q : Option String)
    (pos2 st1 st2 : String) (t1 t2 : BioguideTermRecord)
    (h1 : mkBioguideTermRecord n p "speaker of the house" st1 = some t1)
    (h2 : mkBioguideTermRecord n q pos2 st2 = some t2)
    (hpq : p ≠ q)
    (hpos2 : pos2 ≠ "speaker of the house")
    (hexec2 : isExecPos pos2 = false)
    (hl1 : ∀ t ∈ l1, t.congress_number ≠ n)
    (hl2 : ∀ t ∈ l2, t.congress_number ≠ n)
    (hl3 : ∀ t ∈ l3, t.congress_number ≠ n) :
    (merge_terms (l1 ++ t1 :: l2 ++ t2 :: l3)).filter
        (fun r => r.congress_number == n) = [t2] ∧
    t2.position = pos2 ∧ t2.house_speaker = false := by
  obtain ⟨hc1, hpos1, -, hparty1, hsp1⟩ := mkBioguideTermRecord_fields h1
  obtain ⟨hc2, hpos2', -, hparty2, hsp2⟩ := mkBioguideTermRecord_fields h2
  have hs2 : t2.house_speaker = false := by
    rw [hsp2]
    simp [hpos2]
  have hex1 : isExecPos t1.position = false := by rw [hpos1]; decide
  have hex2 : isExecPos t2.position = false := by rw [hpos2']; exact hexec2
  have hpp : t1.party ≠ t2.party := by rw [hparty1, hparty2]; exact hpq
  refine ⟨?_, hpos2', hs2⟩
  rw [merge_terms_filter]
  have s1 : List.foldl (perKeyStep n) none (t1 :: l2) = some t1 := by
    rw [List.foldl_cons, perKeyStep_miss hex1 hc1]
    exact foldl_perKeyStep_other (some t1) hl2
  have s2 : List.foldl (perKeyStep n) (some t1) (t2 :: l3) = some t2 := by
    rw [List.foldl_cons, perKeyStep_hit hex2 hc2,
      updateMatch_party_conflict hpp hs2]
    exact foldl_perKeyStep_other (some t2) hl3
  have hfold : (l1 ++ t1 :: l2 ++ t2 :: l3).foldl (perKeyStep n) none = some t2 := by
    rw [List.foldl_append, List.foldl_append, foldl_perKeyStep_other none hl1, s1, s2]
  rw [hfold]

/-- C1 witness: the 26th congress, a speaker term and a representative term
of the same party, merged in both orders. -/
theorem merge_presiding_officer_precedence_witness :
    mkBioguideTermRecord 26 (some "jackson") "speaker of the house" "TN" =
      some ⟨26, 1839, 1841, "speaker of the house", "TN", some "jackson", true⟩ ∧
    mkBioguideTermRecord 26 (some "jackson") "representative" "TN" =
      some ⟨26, 1839, 1841, "representative", "TN", some "jackson", false⟩ ∧
    (merge_terms [⟨26, 1839, 1841, "speaker of the house", "TN", some "jackson", true⟩,
        ⟨26, 1839, 1841, "representative", "TN", some "jackson", false⟩]).map
      (fun r => (r.position, r.house_speaker)) = [("representative", true)] ∧
    (merge_terms [⟨26, 1839, 1841, "representative", "TN", some "jackson", false⟩,
        ⟨26, 1839, 1841, "speaker of the house", "TN", some "jackson", true⟩]).map
      (fun r => (r.position, r.house_speaker)) = [("representative", true)] :=
  ⟨by decide, by decide,
   (merge_presiding_officer_precedence 26 (some "jackson") "TN" "TN"
      ⟨26, 1839, 1841, "speaker of the house", "TN", some "jackson", true⟩
      ⟨26, 1839, 1841, "representative", "TN", some "jackson", false⟩
      (by decide) (by decide)).1,
   (merge_presiding_officer_precedence 26 (some "jackson") "TN" "TN"
      ⟨26, 1839, 1841, "speaker of the house", "TN", some "jackson", true⟩
      ⟨26, 1839, 1841, "representative", "TN", some "jackson", false⟩
      (by decide) (by decide)).2⟩

/-- C3 witness: a speaker term followed by a representative term of a
different party, with no surrounding terms. -/
theorem merge_party_conflict_cancels_speaker_flag_witness :
    (some "jackson" : Option String) ≠ some "whig" ∧
    (merge_terms ([] ++ ⟨26, 1839, 1841, "speaker of the house", "TN", some "jackson", true⟩ ::
        [] ++ ⟨26, 1839, 1841, "representative", "TN", some "whig", false⟩ :: [])).filter
      (fun r => r.congress_number == 26) =
      [⟨26, 1839, 1841, "representative", "TN", some "whig", false⟩] ∧
    BioguideTermRecord.position
      ⟨26, 1839, 1841, "representative", "TN", some "whig", false⟩ = "representative" ∧
    BioguideTermRecord.house_speaker
      ⟨26, 1839, 1841, "representative", "TN", some "whig", false⟩ = false :=
  ⟨by decide,
   (merge_party_conflict_cancels_speaker_flag [] [] [] 26 (some "jackson") (some "whig")
      "representative" "TN" "TN"
      ⟨26, 1839, 1841, "speaker of the house", "TN", some "jackson", true⟩
      ⟨26, 1839, 1841, "representative", "TN", some "whig", false⟩
      (by decide) (by decide) (by decide) (by decide) (by decide)
      (fun t ht => absurd ht (List.not_mem_nil t))
      (fun t ht => absurd ht (List.not_mem_nil t))
      (fun t ht => absurd ht (List.not_mem_nil t))).1,
   (merge_party_conflict_cancels_speaker_flag [] [] [] 26 (some "jackson") (some "whig")
      "representative" "TN" "TN"
      ⟨26, 1839, 1841, "speaker of the house", "TN", some "jackson", true⟩
      ⟨26, 1839, 1841, "representative", "TN", some "whig", false⟩
      (by decide) (by decide) (by decide) (by decide) (by decide)
      (fun t ht => absurd ht (List.not_mem_nil t))
      (fun t ht => absurd ht (List.not_mem_nil t))
      (fun t ht => absurd ht (List.not_mem_nil t))).2.1,
   (merge_party_conflict_cancels_speaker_flag [] [] [] 26 (some "jackson") (some "whig")
      "representative" "TN" "TN"
      ⟨26, 1839, 1841, "speaker of the house", "TN", some "jackson", true⟩
      ⟨26, 1839, 1841, "representative", "TN", some "whig", false⟩
      (by decide) (by decide) (by decide) (by decide) (by decide)
      (fun t ht => absurd ht (List.not_mem_nil t))
      (fun t ht => absurd ht (List.not_mem_nil t))
      (fun t ht => absurd ht (List.not_mem_nil t))).2.2⟩

/-! ### Calendar facts -/

theorem table_keys_bound :
    numberYearMapping.all (fun e => decide (0 ≤ e.1) && decide (e.1 ≤ 150)) = true := by
  decide

theorem mem_get_congress_numbers_bound {y k : Int}
    (h : k ∈ get_congress_numbers y) : 0 ≤ k ∧ k ≤ 150 := by
  unfold get_congress_numbers at h
  rcases List.mem_map.mp h with ⟨e, he, rfl⟩
  have he2 := List.mem_of_mem_filter he
  have hb := List.all_eq_true.mp table_keys_bound e he2
  simp only [Bool.and_eq_true, decide_eq_true_eq] at hb
  exact hb

theorem current_congress_mem {d : Date} {cc : Int}
    (h : get_current_congress_number d = some cc) :
    cc ∈ get_congress_numbers d.year := by
  unfold get_current_congress_number at h
  split at h
  · exact List.min?_mem (fun a b => min_choice a b) h
  · exact List.max?_mem (fun a b => max_choice a b) h

theorem current_congress_bound {d : Date} {cc : Int}
    (h : get_current_congress_number d = some cc) : 0 ≤ cc ∧ cc ≤ 150 :=
  mem_get_congress_numbers_bound (current_congress_mem h)

theorem coverage_check :
    (List.range 304).all
      (fun i => !(get_congress_numbers (1786 + (i : Int))).isEmpty) = true := by
  decide

theorem get_congress_numbers_ne_nil {y : Int} (h1 : 1786 ≤ y) (h2 : y ≤ 2089) :
    get_congress_numbers y ≠ [] := by
  have hy : y = 1786 + (((y - 1786).toNat : Nat) : Int) := by
    rw [Int.toNat_of_nonneg (by omega)]
    omega
  have hlt : (y - 1786).toNat < 304 := by omega
  have hc := List.all_eq_true.mp coverage_check _ (List.mem_range.mpr hlt)
  rw [hy]
  simpa using hc

theorem current_congress_isSome {d : Date} (h1 : 1786 ≤ d.year)
    (h2 : d.year ≤ 2089) : (get_current_congress_number d).isSome := by
  unfold get_current_congress_number
  have hne := get_congress_numbers_ne_nil h1 h2
  split
  · rw [Option.isSome_iff_ne_none]
    intro hc
    exact hne (List.min?_eq_none_iff.mp hc)
  · rw [Option.isSome_iff_ne_none]
    intro hc
    exact hne (List.max?_eq_none_iff.mp hc)

theorem first_valid_year_eq : first_valid_year = some 1786 := by decide

/-- C4: the input normalizer is total — for every input (`None` or any
integer), `convert_to_congress_number` returns an integer and never fails,
as long as the ambient date lies inside the known calendar; in particular
the year branch's `max` is always taken over a non-empty set. -/
theorem convert_to_congress_number_total (d : Date)
    (h1 : 1786 ≤ d.year) (h2 : d.year ≤ 2089) :
    (∀ v : Option Int, (convert_to_congress_number d v).isSome) ∧
    (∀ y : Int, 1786 ≤ y → y < d.year → get_congress_numbers y ≠ []) := by
  have hcur := current_congress_isSome h1 h2
  constructor
  · intro v
    cases v with
    | none => exact hcur
    | some n =>
      simp only [convert_to_congress_number, first_valid_year_eq]
      by_cases hn1 : n ≥ d.year
      · rw [if_pos hn1]
        exact hcur
      · rw [if_neg hn1]
        by_cases hn2 : n ≥ (1786 : Int)
        · rw [if_pos hn2]
          rw [Option.isSome_iff_ne_none]
          intro hc
          exact get_congress_numbers_ne_nil hn2 (by omega)
            (List.max?_eq_none_iff.mp hc)
        · rw [if_neg hn2]
          obtain ⟨cc, hcc⟩ := Option.isSome_iff_exists.mp hcur
          rw [hcc]
          by_cases hn3 : n > cc
          · simp [hn3]
          · by_cases hn4 : n ≥ (0 : Int) <;> simp [hn3, hn4]
  · intro y hy1 hy2
    exact get_congress_numbers_ne_nil hy1 (by omega)

/-- C4 witness: on 2026-10-12 the normalizer succeeds on a sample year and
the year-branch set for 2000 is non-empty. -/
theorem convert_to_congress_number_total_witness :
    ((1786 : Int) ≤ 2026 ∧ (2026 : Int) ≤ 2089) ∧
    (convert_to_congress_number ⟨2026, 10, 12⟩ (some 2000)).isSome ∧
    get_congress_numbers 2000 ≠ [] :=
  ⟨⟨by decide, by decide⟩,
   (convert_to_congress_number_total ⟨2026, 10, 12⟩ (by decide) (by decide)).1
     (some 2000),
   (convert_to_congress_number_total ⟨2026, 10, 12⟩ (by decide) (by decide)).2
     2000 (by decide) (by decide)⟩

/-- C5: normalizer idempotence on valid session numbers — for
`0 ≤ n ≤ current_session`, the normalizer returns `n` unchanged. -/
theorem convert_idempotent_on_valid_sessions (d : Date) (cc n : Int)
    (hy1 : 1786 ≤ d.year)
    (hcc : get_current_congress_number d = some cc)
    (hn0 : 0 ≤ n) (hncc : n ≤ cc) :
    convert_to_congress_number d (some n) = some n := by
  have hb := current_congress_bound hcc
  simp only [convert_to_congress_number, first_valid_year_eq, hcc]
  rw [if_neg (show ¬ n ≥ d.year by omega),
    if_neg (show ¬ n ≥ (1786 : Int) by omega),
    if_neg (show ¬ n > cc by omega),
    if_pos (show n ≥ (0 : Int) by omega)]

/-- C5 witness: on 2026-10-12 (current congress 119), session number 100 is
returned unchanged. -/
theorem convert_idempotent_on_valid_sessions_witness :
    get_current_congress_number ⟨2026, 10, 12⟩ = some 119 ∧
    convert_to_congress_number ⟨2026, 10, 12⟩ (some 100) = some 100 :=
  ⟨by decide,
   convert_idempotent_on_valid_sessions ⟨2026, 10, 12⟩ 119 100
     (by decide) (by decide) (by decide) (by decide)⟩

theorem contiguity_check :
    (List.range 150).all
      (fun i => (get_end_year (i : Int) == get_start_year ((i : Int) + 1))
        && (get_start_year ((i : Int) + 1)).isSome) = true := by
  decide

/-- C6: calendar contiguity — for every session `0 < n ≤ current_session`,
the end year of session `n-1` equals the start year of session `n`, and the
zero entry spans 1786–1789. -/
theorem calendar_contiguity (d : Date) (cc : Int)
    (hcc : get_current_congress_number d = some cc) :
    (∀ n : Int, 0 < n → n ≤ cc →
      get_end_year (n - 1) = get_start_year n ∧ (get_start_year n).isSome) ∧
    get_start_year 0 = some 1786 ∧ get_end_year 0 = some 1789 := by
  have hb := current_congress_bound hcc
  refine ⟨fun n hn1 hn2 => ?_, by decide, by decide⟩
  have hi : ((n - 1).toNat : Int) = n - 1 := Int.toNat_of_nonneg (by omega)
  have hlt : (n - 1).toNat < 150 := by omega
  have hc := List.all_eq_true.mp contiguity_check _ (List.mem_range.mpr hlt)
  simp only [Bool.and_eq_true, beq_iff_eq] at hc
  rw [hi] at hc
  have hn : n - 1 + 1 = n := by omega
  rw [hn] at hc
  exact hc

/-- C6 witness: on 2026-10-12 (current congress 119), sessions 99 and 100
are adjacent, and the zero entry spans 1786–1789. -/
theorem calendar_contiguity_witness :
    get_current_congress_number ⟨2026, 10, 12⟩ = some 119 ∧
    (get_end_year 99 = get_start_year 100 ∧ (get_start_year 100).isSome) ∧
    get_start_year 0 = some 1786 ∧ get_end_year 0 = some 1789 :=
  ⟨by decide,
   (calendar_contiguity ⟨2026, 10, 12⟩ 119 (by decide)).1 100
     (by decide) (by decide),
   (calendar_contiguity ⟨2026, 10, 12⟩ 119 (by decide)).2⟩

theorem range_check :
    (List.range 151).all (fun i => (lookupYears (i : Int)).isSome) = true := by
  decide

theorem lookupYears_isSome_bound {n : Int} (h : (lookupYears n).isSome) :
    0 ≤ n ∧ n ≤ 150 := by
  unfold lookupYears at h
  cases hf : numberYearMapping.find? (fun e => e.1 == n) with
  | none => rw [hf] at h; simp at h
  | some e =>
    have he := List.mem_of_find?_eq_some hf
    have hp := @List.find?_some _ (fun e => e.1 == n) e _ hf
    have hb := List.all_eq_true.mp table_keys_bound e he
    simp only [Bool.and_eq_true, decide_eq_true_eq] at hb
    have hen : e.1 = n := by exact_mod_cast beq_iff_eq.mp hp
    omega

theorem lookupYears_isSome_iff (n : Int) :
    (lookupYears n).isSome ↔ (0 ≤ n ∧ n ≤ 150) := by
  constructor
  · exact lookupYears_isSome_bound
  · rintro ⟨h0, h1⟩
    have hi : (n.toNat : Int) = n := Int.toNat_of_nonneg h0
    have hlt : n.toNat < 151 := by omega
    have hc := List.all_eq_true.mp range_check _ (List.mem_range.mpr hlt)
    simpa [hi] using hc

/-- C7: out-of-range session lookups fail — `get_start_year` and
`get_end_year` fail (the `KeyError` the spec names `OutOfRangeError`)
exactly when the number is negative or exceeds the highest known session
(150), and return a table value exactly when it is within the calendar. -/
theorem start_end_year_out_of_range (number : Int) :
    (get_start_year number = none ∧ get_end_year number = none ↔
      number < 0 ∨ 150 < number) ∧
    ((∃ y, get_start_year number = some y) ∧ (∃ y, get_end_year number = some y) ↔
      0 ≤ number ∧ number ≤ 150) := by
  have hiff := lookupYears_isSome_iff number
  constructor
  · constructor
    · rintro ⟨h1, -⟩
      unfold get_start_year at h1
      have hns : ¬(lookupYears number).isSome := by
        cases hl : lookupYears number with
        | none => simp
        | some p => rw [hl] at h1; simp at h1
      by_contra hcon
      push_neg at hcon
      exact hns (hiff.mpr ⟨hcon.1, hcon.2⟩)
    · intro h
      have hnone : lookupYears number = none := by
        rw [← Option.not_isSome_iff_eq_none]
        intro hs
        have := hiff.mp hs
        omega
      unfold get_start_year get_end_year
      rw [hnone]
      exact ⟨rfl, rfl⟩
  · constructor
    · rintro ⟨⟨y, hy⟩, -⟩
      apply hiff.mp
      unfold get_start_year at hy
      cases hl : lookupYears number with
      | none => rw [hl] at hy; simp at hy
      | some p => simp [hl]
    · intro h
      have hs := hiff.mpr h
      obtain ⟨p, hp⟩ := Option.isSome_iff_exists.mp hs
      unfold get_start_year get_end_year
      rw [hp]
      exact ⟨⟨p.1, rfl⟩, ⟨p.2, rfl⟩⟩

theorem validBioguideRecord_iff (b : BioguideMemberRecord) :
    validBioguideRecord b = true ↔
      (b.bioguide_id ≠ "" ∧ b.first_name ≠ "" ∧ b.last_name ≠ "" ∧
        b.terms ≠ []) := by
  unfold validBioguideRecord
  simp only [Bool.and_eq_true, Bool.not_eq_true', beq_eq_false_iff_ne, ne_eq,
    List.isEmpty_eq_false_iff_exists_mem]
  constructor
  · rintro ⟨⟨⟨h1, h2⟩, h3⟩, h4⟩
    refine ⟨h1, h2, h3, fun hnil => ?_⟩
    rw [hnil] at h4
    simp at h4
  · rintro ⟨h1, h2, h3, h4⟩
    refine ⟨⟨⟨h1, h2⟩, h3⟩, ?_⟩
    cases hb : b.terms with
    | nil => exact absurd hb h4
    | cons x xs => exact ⟨x, by simp [hb]⟩

theorem setBioguide_ok {m : CongressMember} {b : BioguideMemberRecord}
    {c : CongressMember} (h : setBioguide m b = Except.ok c) :
    c.bg = some b ∧ c.bg_id = some b.bioguide_id ∧
      validBioguideRecord b = true := by
  unfold setBioguide at h
  by_cases hv : validBioguideRecord b
  · rw [if_pos hv] at h
    injection h with h
    subst h
    exact ⟨rfl, rfl, hv⟩
  · rw [if_neg hv] at h
    exact absurd h (by simp)

/-- C8: invariant rejection at construction — assigning a bioguide record
whose terms list (or id, first name, last name) is empty raises
`InvalidBioguideError` (the spec's `InvalidRecordError`) instead of storing
the record, and the member-list builder never yields a member holding a
defaulted or zero-term record. -/
theorem invariant_rejection_at_construction :
    (∀ (m : CongressMember) (b : BioguideMemberRecord),
      setBioguide m b = Except.error DuoError.invalidBioguide ↔
        (b.bioguide_id = "" ∨ b.first_name = "" ∨ b.last_name = "" ∨
          b.terms = [])) ∧
    (∀ (rs : List BioguideMemberRecord) (out : List CongressMember),
      buildMembers rs = Except.ok out →
      ∀ c ∈ out, ∃ b, c.bg = some b ∧ b.bioguide_id ≠ "" ∧
        b.first_name ≠ "" ∧ b.last_name ≠ "" ∧ b.terms ≠ []) := by
  constructor
  · intro m b
    by_cases hv : validBioguideRecord b = true
    · obtain ⟨n1, n2, n3, n4⟩ := (validBioguideRecord_iff b).mp hv
      simp only [setBioguide, hv, if_true]
      constructor
      · intro h
        exact absurd h (by simp)
      · rintro (h | h | h | h)
        · exact absurd h n1
        · exact absurd h n2
        · exact absurd h n3
        · exact absurd h n4
    · have hvf : validBioguideRecord b = false := by simpa using hv
      have hd : b.bioguide_id = "" ∨ b.first_name = "" ∨ b.last_name = "" ∨
          b.terms = [] := by
        by_contra hc
        push_neg at hc
        exact hv ((validBioguideRecord_iff b).mpr
          ⟨hc.1, hc.2.1, hc.2.2.1, hc.2.2.2⟩)
      simp [setBioguide, hvf, hd]
  · intro rs
    induction rs with
    | nil =>
      intro out h c hc
      unfold buildMembers at h
      injection h with h
      subst h
      exact absurd hc (List.not_mem_nil c)
    | cons r rest ih =>
      intro out h c hc
      unfold buildMembers at h
      cases hs : setBioguide (newCongressMember r.bioguide_id) r with
      | error e => rw [hs] at h; exact absurd h (by simp)
      | ok c0 =>
        rw [hs] at h
        cases hb : buildMembers rest with
        | error e => rw [hb] at h; exact absurd h (by simp)
        | ok cs =>
          rw [hb] at h
          injection h with h
          subst h
          rcases List.mem_cons.mp hc with rfl | hc
          · obtain ⟨hbg, -, hvr⟩ := setBioguide_ok hs
            obtain ⟨n1, n2, n3, n4⟩ := (validBioguideRecord_iff r).mp hvr
            exact ⟨r, hbg, n1, n2, n3, n4⟩
          · exact ih cs hb c hc

/-- C8 witness: a zero-term record is rejected by the setter, and a
one-term record passes through the builder with its record attached. -/
theorem invariant_rejection_at_construction_witness :
    setBioguide (newCongressMember (some "S000033"))
      ⟨"S000033", "Bernard", "Sanders", none, none, some "1941", none, none,
        []⟩ = Except.error DuoError.invalidBioguide ∧
    (∃ b, CongressMember.bg
        ⟨some "S000033",
         some ⟨"S000033", "Bernard", "Sanders", none, none, some "1941", none,
           none, [⟨116, 2019, 2021, "senator", "VT", none, false⟩]⟩⟩ = some b ∧
      b.bioguide_id ≠ "" ∧ b.first_name ≠ "" ∧ b.last_name ≠ "" ∧
      b.terms ≠ []) :=
  ⟨(invariant_rejection_at_construction.1 (newCongressMember (some "S000033"))
      ⟨"S000033", "Bernard", "Sanders", none, none, some "1941", none, none,
        []⟩).mpr (Or.inr (Or.inr (Or.inr rfl))),
   invariant_rejection_at_construction.2
     [⟨"S000033", "Bernard", "Sanders", none, none, some "1941", none, none,
        [⟨116, 2019, 2021, "senator", "VT", none, false⟩]⟩]
     [⟨some "S000033",
       some ⟨"S000033", "Bernard", "Sanders", none, none, some "1941", none,
         none, [⟨116, 2019, 2021, "senator", "VT", none, false⟩]⟩⟩]
     rfl
     ⟨some "S000033",
      some ⟨"S000033", "Bernard", "Sanders", none, none, some "1941", none,
        none, [⟨116, 2019, 2021, "senator", "VT", none, false⟩]⟩⟩
     (by simp)⟩

/-- C9 evidence: `Congress.members` performs no deduplication by
bioguide id — a bioguide member list containing the same (valid) record
twice yields two `CongressMember`s with the same id, contradicting the
claimed (and docstring-promised) uniqueness per `person_id`. -/
theorem congress_members_no_dedup :
    congress_members
      [⟨"S000033", "Bernard", "Sanders", none, none, some "1941", none, none,
         [⟨116, 2019, 2021, "senator", "VT", none, false⟩]⟩,
       ⟨"S000033", "Bernard", "Sanders", none, none, some "1941", none, none,
         [⟨116, 2019, 2021, "senator", "VT", none, false⟩]⟩] =
      Except.ok
        [⟨some "S000033",
          some ⟨"S000033", "Bernard", "Sanders", none, none, some "1941",
            none, none, [⟨116, 2019, 2021, "senator", "VT", none, false⟩]⟩⟩,
         ⟨some "S000033",
          some ⟨"S000033", "Bernard", "Sanders", none, none, some "1941",
            none, none, [⟨116, 2019, 2021, "senator", "VT", none, false⟩]⟩⟩] ∧
    ¬ ([some "S000033", some "S000033"] : List (Option String)).Nodup := by
  constructor
  · rfl
  · decide

/-- C10: sanitize-and-retry-once on XML parse failure — the strict parse is
attempted first; on failure the text is sanitized (every character outside
the fixed allow-list removed) and the parse retried exactly once, a second
failure propagating with no third attempt. -/
theorem parse_retry_once {E A : Type} (parse : List Char → Except E A)
    (text : List Char) :
    (∀ x : A, parse text = Except.ok x →
      query_member_parse parse text = (Except.ok x, 1)) ∧
    (∀ e : E, parse text = Except.error e →
      query_member_parse parse text = (parse (clean_xml text), 2)) ∧
    (∀ e : E, ∀ e2 : E, parse text = Except.error e →
      parse (clean_xml text) = Except.error e2 →
      query_member_parse parse text = (Except.error e2, 2)) ∧
    (∀ c ∈ clean_xml text, isAllowedXmlChar c = true) := by
  refine ⟨?_, ?_, ?_, ?_⟩
  · intro x h
    simp [query_member_parse, h]
  · intro e h
    simp [query_member_parse, h]
  · intro e e2 h h2
    simp [query_member_parse, h, h2]
  · intro c hc
    unfold clean_xml at hc
    exact (List.mem_filter.mp hc).2

/-- C10 witness: a parser that rejects texts holding disallowed characters
fails on a text with a NUL byte, succeeds after sanitization, and the
sanitized characters are all allowed; a parser that always fails makes the
second failure propagate. -/
theorem parse_retry_once_witness :
    ((fun s : List Char =>
        if s.any (fun c => !isAllowedXmlChar c) then Except.error s.length
        else Except.ok s.length) ['<', 'a', Char.ofNat 0, '>'] =
      Except.error 4) ∧
    query_member_parse
      (fun s : List Char =>
        if s.any (fun c => !isAllowedXmlChar c) then Except.error s.length
        else Except.ok s.length) ['<', 'a', Char.ofNat 0, '>'] =
      (Except.ok 3, 2) ∧
    query_member_parse (fun _ : List Char => (Except.error 0 : Except Nat Nat))
      ['<', 'a', Char.ofNat 0, '>'] = ((Except.error 0 : Except Nat Nat), 2) ∧
    isAllowedXmlChar 'a' = true := by
  refine ⟨rfl, ?_, ?_, ?_⟩
  · have h := (parse_retry_once
      (fun s : List Char =>
        if s.any (fun c => !isAllowedXmlChar c) then Except.error s.length
        else Except.ok s.length) ['<', 'a', Char.ofNat 0, '>']).2.1 4 rfl
    rw [h]
    rfl
  · exact (parse_retry_once (fun _ : List Char => (Except.error 0 : Except Nat Nat))
      ['<', 'a', Char.ofNat 0, '>']).2.2.1 0 0 rfl rfl
  · exact (parse_retry_once (fun s : List Char => (Except.ok 0 : Except Nat Nat))
      ['a']).2.2.2 'a' (by decide)

end Vistos
